import Mathlib

/-!
Shallow embedding of `src/src/builder2.rs` of the sqlx-fragment repository:
the runtime query builder (`QueryBuilder`), the separator-aware list helper
(`Separated`), and fragment composition (`push_fragment`).

Modeling conventions:
* SQL text (Rust `String`) is a list of characters (`Str`). Every mutation of
  the text appends, except `reset`, which truncates to the stored initial
  length; since the initial fragment is always a preserved prefix of the text,
  truncating at its byte length in Rust and at its character count here cut at
  the same boundary.
* The sqlx `Arguments` buffer is external to the repository and is modeled
  from the spec (§4.2, §6): an ordered sequence of bound values with a
  fallible `add` (via an encode function), a `reserve` capacity hint with no
  semantic effect, a count, and a dialect-specific `format_placeholder` that
  can fail when a parameter-count limit is exceeded. The dialect (`?` versus
  `$N`) and the limit policy mirror the `DB` type parameter of the Rust code
  and are passed explicitly; the encode function mirrors the per-call
  `Encode` bound of `push_bind`.
* Rust panics (`assert!`, `expect`, `unwrap`) and recoverable failures are
  modeled uniformly as `Except.error String`; `&mut self` methods become
  state-passing functions returning the new state; consuming
  (`self`-by-value) methods take the builder and do not return it.
-/

namespace SqlxFragment

/-- SQL text: Rust `String`, modeled as a character list. -/
abbrev Str := List Char

/-- Modelled from the spec: the placeholder syntax of the dialect abstraction
(§6): "an untyped ordinal marker, or a 1-based numbered marker (`$N`) for
dialects requiring numbered parameters" (§4.1). -/
inductive Dialect where
  | questionMark
  | numbered
deriving DecidableEq

/-- Modelled from the spec: the placeholder token for the `n`-th bound value
(1-based): `?`, or `$n` in decimal. -/
def placeholderToken (d : Dialect) (n : Nat) : Str :=
  match d with
  | .questionMark => ['?']
  | .numbered => '$' :: Nat.toDigits 10 n

/-- Modelled from the spec: the `ArgumentBuffer` (§3, §4.2) — an "ordered
sequence of already-encoded, heterogeneously-typed bound values" (modeled
homogeneously over `α`). The sqlx `Arguments` implementations are external to
the repository. -/
structure ArgumentBuffer (α : Type) where
  vals : List α
deriving DecidableEq

/-- Modelled from the spec: `add(value)` — "encode `value` ... and append;
fails (caller-recoverable) if the value cannot be encoded" (§4.2). -/
def ArgumentBuffer.add {α : Type} (enc : α → Except String α)
    (b : ArgumentBuffer α) (v : α) : Except String (ArgumentBuffer α) := do
  let w ← enc v
  pure ⟨b.vals ++ [w]⟩

/-- Modelled from the spec: `reserve(n)` — "capacity hint; no observable
semantic effect" (§4.2). The second parameter mirrors the second argument of
the sqlx signature. -/
def ArgumentBuffer.reserve {α : Type} (b : ArgumentBuffer α) (_n _extra : Nat) :
    ArgumentBuffer α :=
  b

/-- Modelled from the spec: `length()` — "current count of bound values". -/
def ArgumentBuffer.len {α : Type} (b : ArgumentBuffer α) : Nat :=
  b.vals.length

/-- Modelled from the spec: `format_placeholder(buffer)` — "appends the next
placeholder token (based on current count) to `buffer` using dialect rules;
fails if a dialect-specific parameter-count limit is exceeded" (§4.2).
`lim = none` means no limit. -/
def ArgumentBuffer.formatPlaceholder {α : Type} (d : Dialect) (lim : Option Nat)
    (b : ArgumentBuffer α) (query : Str) : Except String Str :=
  match lim with
  | some l => if l < b.vals.length then .error "parameter limit exceeded"
      else .ok (query ++ placeholderToken d b.vals.length)
  | none => .ok (query ++ placeholderToken d b.vals.length)

/-- `QueryBuilder` (builder2.rs lines 24-31): growable text, the length of the
initial fragment, and an owned-or-absent argument buffer. -/
structure QueryBuilder (α : Type) where
  query : Str
  init_len : Nat
  arguments : Option (ArgumentBuffer α)
deriving DecidableEq

/-- `QueryBuilder::new` (lines 50-61): text = the initial fragment, which may
be empty; `init_len` = its length; a fresh empty argument buffer. -/
def QueryBuilder.new {α : Type} (init : Str) : QueryBuilder α :=
  { query := init, init_len := init.length, arguments := some ⟨[]⟩ }

/-- `Default for QueryBuilder` (lines 33-41): empty text, `init_len` 0, fresh
empty argument buffer. -/
def QueryBuilder.defaultBuilder {α : Type} : QueryBuilder α :=
  { query := [], init_len := 0, arguments := some ⟨[]⟩ }

/-- `QueryBuilder::with_arguments` (lines 67-79): caller-supplied arguments;
no consistency check against the initial text. -/
def QueryBuilder.with_arguments {α : Type} (init : Str) (args : ArgumentBuffer α) :
    QueryBuilder α :=
  { query := init, init_len := init.length, arguments := some args }

/-- `QueryBuilder::sanity_check` (lines 82-87): asserts that the argument
buffer is present; the `assert!` panic is modeled as `Except.error`. -/
def QueryBuilder.sanity_check {α : Type} (b : QueryBuilder α) : Except String Unit :=
  if b.arguments.isSome then .ok ()
  else .error "QueryBuilder must be reset before reuse after build"

/-- `QueryBuilder::push` (lines 116-122): sanity check, then append the
formatted fragment verbatim. `write!` into a `String` cannot fail for the
fully-materialized text modeled here, so the `expect` branch is absent. -/
def QueryBuilder.push {α : Type} (b : QueryBuilder α) (sql : Str) :
    Except String (QueryBuilder α) := do
  b.sanity_check
  pure { b with query := b.query ++ sql }

/-- `QueryBuilder::push_bind` (lines 148-165): sanity check; take a mutable
view of the arguments (`expect` on `None` modeled as error); `add` the value;
then `format_placeholder` into the text. Both `expect`s on the fallible calls
are modeled as error propagation. -/
def QueryBuilder.push_bind {α : Type} (d : Dialect) (lim : Option Nat)
    (enc : α → Except String α) (b : QueryBuilder α) (v : α) :
    Except String (QueryBuilder α) := do
  b.sanity_check
  let args ← match b.arguments with
    | some a => pure a
    | none => Except.error "BUG: Arguments taken already"
  let args ← args.add enc v
  let q ← ArgumentBuffer.formatPlaceholder d lim args b.query
  pure { b with query := q, arguments := some args }

/-- Models the loop of lines 182-184, `for argument in fragment.arguments`:
it iterates the fragment's `arguments` **`Option`** — which the `take()` on
lines 174-177 has just emptied — so it performs zero iterations. (The `some`
branch renders the counterfactual non-empty iteration as adding the iterated
buffer's contents; it is never reached, since `push_fragment` always passes
`none` here.) -/
def addTakenArguments {α : Type} (enc : α → Except String α)
    (args : ArgumentBuffer α) : Option (ArgumentBuffer α) →
    Except String (ArgumentBuffer α)
  | none => pure args
  | some fb => fb.vals.foldlM (fun acc v => acc.add enc v) args

/-- `QueryBuilder::push_fragment` (lines 167-191), embedded literally: sanity
check; take the fragment's argument buffer out (leaving `None` behind);
append the fragment's text; `reserve` capacity for the taken buffer's count;
then loop `for argument in fragment.arguments` — over the now-empty `Option`,
copying nothing — and finally call `format_placeholder`, appending one extra
placeholder token. (As written the source does not even compile: `fragment`
is not declared `mut`, and the loop item would be a whole argument buffer,
not a bindable value.) -/
def QueryBuilder.push_fragment {α : Type} (d : Dialect) (lim : Option Nat)
    (enc : α → Except String α) (b : QueryBuilder α) (fragment : QueryBuilder α) :
    Except String (QueryBuilder α) := do
  b.sanity_check
  let args ← match b.arguments with
    | some a => pure a
    | none => Except.error "BUG: Arguments taken already"
  let fragment_arguments ← match fragment.arguments with
    | some a => pure a
    | none => Except.error "BUG: Arguments taken already"
  let fragmentAfterTake : QueryBuilder α := { fragment with arguments := none }
  let q := b.query ++ fragmentAfterTake.query
  let args := args.reserve fragment_arguments.len 0
  let args ← addTakenArguments enc args fragmentAfterTake.arguments
  let q ← ArgumentBuffer.formatPlaceholder d lim args q
  pure { b with query := q, arguments := some args }

/-- `Separated` (lines 266-273): the exclusive borrow of the parent builder is
modeled by holding it as state and passing it along. -/
structure Separated (α : Type) where
  query_builder : QueryBuilder α
  separator : Str
  push_separator : Bool
deriving DecidableEq

/-- `QueryBuilder::separated` (lines 221-233): sanity check, then a view with
the separator and the flag cleared. -/
def QueryBuilder.separated {α : Type} (b : QueryBuilder α) (separator : Str) :
    Except String (Separated α) := do
  b.sanity_check
  pure { query_builder := b, separator := separator, push_separator := false }

/-- `QueryBuilder::into_sqlx_query_builder` (lines 235-238): consumes the
builder, `unwrap`ping the argument buffer (modeled as error on `None`) and
yielding the (text, arguments) pair handed to the external API — the spec's
terminal "finalize". -/
def QueryBuilder.into_sqlx_query_builder {α : Type} (b : QueryBuilder α) :
    Except String (Str × ArgumentBuffer α) :=
  match b.arguments with
  | some a => .ok (b.query, a)
  | none => .error "called unwrap on None"

/-- `QueryBuilder::reset` (lines 244-249): truncate the text to `init_len` and
install a fresh empty argument buffer; no state check is performed. -/
def QueryBuilder.reset {α : Type} (b : QueryBuilder α) : QueryBuilder α :=
  { b with query := b.query.take b.init_len, arguments := some ⟨[]⟩ }

/-- `QueryBuilder::sql` (lines 252-254): read-only access to the current text,
valid in any state. -/
def QueryBuilder.sql {α : Type} (b : QueryBuilder α) : Str :=
  b.query

/-- `QueryBuilder::into_sql` (lines 257-259): consumes the builder, returning
the text; the argument slot is not inspected. -/
def QueryBuilder.into_sql {α : Type} (b : QueryBuilder α) : Str :=
  b.query

/-- `Separated::push` (lines 283-293): if the flag is set, push
`format_args!("{}{}", separator, sql)` — the separator followed by the
fragment, as one push; otherwise push the fragment alone and set the flag. -/
def Separated.push {α : Type} (s : Separated α) (sql : Str) :
    Except String (Separated α) :=
  if s.push_separator then do
    let qb ← s.query_builder.push (s.separator ++ sql)
    pure { s with query_builder := qb }
  else do
    let qb ← s.query_builder.push sql
    pure { s with query_builder := qb, push_separator := true }

/-- `Separated::push_unseparated` (lines 298-301): simply calls
`QueryBuilder::push` directly; the flag is not touched. -/
def Separated.push_unseparated {α : Type} (s : Separated α) (sql : Str) :
    Except String (Separated α) := do
  let qb ← s.query_builder.push sql
  pure { s with query_builder := qb }

/-- `Separated::push_bind` (lines 306-318): if the flag is set, first push the
separator; then bind the value; then set the flag unconditionally. -/
def Separated.push_bind {α : Type} (d : Dialect) (lim : Option Nat)
    (enc : α → Except String α) (s : Separated α) (v : α) :
    Except String (Separated α) := do
  let qb ← if s.push_separator then s.query_builder.push s.separator
    else pure s.query_builder
  let qb ← qb.push_bind d lim enc v
  pure { s with query_builder := qb, push_separator := true }

/-- `Separated::push_bind_unseparated` (lines 324-330): simply calls
`QueryBuilder::push_bind` directly; the flag is not touched. -/
def Separated.push_bind_unseparated {α : Type} (d : Dialect) (lim : Option Nat)
    (enc : α → Except String α) (s : Separated α) (v : α) :
    Except String (Separated α) := do
  let qb ← s.query_builder.push_bind d lim enc v
  pure { s with query_builder := qb }

/-- Encode function of a dialect/type pairing in which every value encodes
successfully (e.g. integers for any of the supported engines). -/
def encodeOk {α : Type} : α → Except String α :=
  fun v => .ok v

/-- Encode function of a dialect/type pairing in which no value can be
encoded, failing with message `e`. -/
def encodeFail {α : Type} (e : String) : α → Except String α :=
  fun _ => .error e

/-- One builder operation of the kind quantified over by the spec's
"for any sequence of `push`/`push_bind` calls" (§8). -/
inductive Op (α : Type) where
  | push (sql : Str)
  | push_bind (v : α)
deriving DecidableEq

/-- Run a sequence of `push`/`push_bind` operations left to right. -/
def runOps {α : Type} (d : Dialect) (lim : Option Nat)
    (enc : α → Except String α) (b : QueryBuilder α) :
    List (Op α) → Except String (QueryBuilder α)
  | [] => pure b
  | op :: rest => do
    let b' ← match op with
      | .push s => b.push s
      | .push_bind v => b.push_bind d lim enc v
    runOps d lim enc b' rest

/-- The text a sequence of operations appends when the argument buffer already
holds `k` values: pushed fragments verbatim, and the `j`-th bind of the
sequence as the placeholder token numbered `k + j` (1-based). -/
def renderOps {α : Type} (d : Dialect) (k : Nat) : List (Op α) → Str
  | [] => []
  | .push s :: rest => s ++ renderOps d k rest
  | .push_bind _ :: rest => placeholderToken d (k + 1) ++ renderOps d (k + 1) rest

/-- The values bound by a sequence of operations, in call order. -/
def bindVals {α : Type} : List (Op α) → List α
  | [] => []
  | .push _ :: rest => bindVals rest
  | .push_bind v :: rest => v :: bindVals rest

/-- The text fragments pushed verbatim by a sequence of operations. -/
def pushedStrs {α : Type} : List (Op α) → List Str
  | [] => []
  | .push s :: rest => s :: pushedStrs rest
  | .push_bind _ :: rest => pushedStrs rest

/-- A parameter-count limit `lim` admits `n` bound values. -/
def limitOk (lim : Option Nat) (n : Nat) : Prop :=
  ∀ l, lim = some l → n ≤ l

instance (lim : Option Nat) (n : Nat) : Decidable (limitOk lim n) := by
  unfold limitOk
  cases lim with
  | none => exact isTrue (fun _ h => nomatch h)
  | some l =>
    refine decidable_of_iff (n ≤ l) ?_
    constructor
    · intro h l' hl'; cases hl'; exact h
    · intro h; exact h l rfl

theorem limitOk_none (n : Nat) : limitOk none n :=
  fun _ h => nomatch h

theorem sanity_check_ok {α : Type} (b : QueryBuilder α) (h : b.arguments.isSome) :
    b.sanity_check = .ok () := by
  simp [QueryBuilder.sanity_check, h]

theorem push_eq {α : Type} (b : QueryBuilder α) (a : ArgumentBuffer α) (sql : Str)
    (h : b.arguments = some a) :
    b.push sql = .ok { b with query := b.query ++ sql } := by
  simp [QueryBuilder.push, QueryBuilder.sanity_check, h, Bind.bind, Except.bind,
    Pure.pure, Except.pure]

theorem push_none_err {α : Type} (b : QueryBuilder α) (sql : Str)
    (h : b.arguments = none) :
    b.push sql = .error "QueryBuilder must be reset before reuse after build" := by
  simp [QueryBuilder.push, QueryBuilder.sanity_check, h, Bind.bind, Except.bind]

theorem push_ok_inv {α : Type} {b b' : QueryBuilder α} {sql : Str}
    (h : b.push sql = .ok b') :
    b.arguments.isSome ∧ b' = { b with query := b.query ++ sql } := by
  cases ha : b.arguments with
  | none =>
    rw [push_none_err b sql ha] at h
    exact Except.noConfusion h
  | some a =>
    rw [push_eq b a sql ha] at h
    injection h with h
    exact ⟨by simp [ha], by rw [← h, ha]⟩

theorem push_bind_eq {α : Type} (d : Dialect) (lim : Option Nat)
    (enc : α → Except String α) (b : QueryBuilder α) (a : ArgumentBuffer α) (v w : α)
    (h : b.arguments = some a) (hw : enc v = .ok w)
    (hlim : limitOk lim (a.vals.length + 1)) :
    b.push_bind d lim enc v =
      .ok { b with
        query := b.query ++ placeholderToken d (a.vals.length + 1),
        arguments := some ⟨a.vals ++ [w]⟩ } := by
  cases lim with
  | none =>
    simp [QueryBuilder.push_bind, QueryBuilder.sanity_check, h, hw, ArgumentBuffer.add,
      ArgumentBuffer.formatPlaceholder, Bind.bind, Except.bind, Pure.pure, Except.pure]
  | some l =>
    have hl : ¬ l < a.vals.length + 1 := by
      have := hlim l rfl
      omega
    simp [QueryBuilder.push_bind, QueryBuilder.sanity_check, h, hw, ArgumentBuffer.add,
      ArgumentBuffer.formatPlaceholder, hl, Bind.bind, Except.bind, Pure.pure, Except.pure]

theorem push_bind_none_err {α : Type} (d : Dialect) (lim : Option Nat)
    (enc : α → Except String α) (b : QueryBuilder α) (v : α)
    (h : b.arguments = none) :
    b.push_bind d lim enc v =
      .error "QueryBuilder must be reset before reuse after build" := by
  simp [QueryBuilder.push_bind, QueryBuilder.sanity_check, h, Bind.bind, Except.bind]

theorem push_bind_enc_err {α : Type} (d : Dialect) (lim : Option Nat)
    (enc : α → Except String α) (b : QueryBuilder α) (a : ArgumentBuffer α) (v : α)
    (e : String) (h : b.arguments = some a) (he : enc v = .error e) :
    b.push_bind d lim enc v = .error e := by
  simp [QueryBuilder.push_bind, QueryBuilder.sanity_check, h, he, ArgumentBuffer.add,
    Bind.bind, Except.bind, Pure.pure, Except.pure]

theorem push_bind_limit_err {α : Type} (d : Dialect)
    (enc : α → Except String α) (b : QueryBuilder α) (a : ArgumentBuffer α) (v w : α)
    (l : Nat) (h : b.arguments = some a) (hw : enc v = .ok w)
    (hl : l < a.vals.length + 1) :
    b.push_bind d (some l) enc v = .error "parameter limit exceeded" := by
  simp [QueryBuilder.push_bind, QueryBuilder.sanity_check, h, hw, ArgumentBuffer.add,
    ArgumentBuffer.formatPlaceholder, hl, Bind.bind, Except.bind, Pure.pure, Except.pure]

theorem push_bind_ok_inv {α : Type} {d : Dialect} {lim : Option Nat}
    {enc : α → Except String α} {b b' : QueryBuilder α} {v : α}
    (h : b.push_bind d lim enc v = .ok b') :
    ∃ a w, b.arguments = some a ∧ enc v = .ok w ∧ limitOk lim (a.vals.length + 1) ∧
      b' = { b with
        query := b.query ++ placeholderToken d (a.vals.length + 1),
        arguments := some ⟨a.vals ++ [w]⟩ } := by
  cases ha : b.arguments with
  | none =>
    rw [push_bind_none_err d lim enc b v ha] at h
    exact Except.noConfusion h
  | some a =>
    cases hw : enc v with
    | error e =>
      rw [push_bind_enc_err d lim enc b a v e ha hw] at h
      exact Except.noConfusion h
    | ok w =>
      cases lim with
      | none =>
        rw [push_bind_eq d none enc b a v w ha hw (limitOk_none _)] at h
        injection h with h
        exact ⟨a, w, rfl, rfl, limitOk_none _, h.symm⟩
      | some l =>
        by_cases hl : l < a.vals.length + 1
        · rw [push_bind_limit_err d enc b a v w l ha hw hl] at h
          exact Except.noConfusion h
        · have hlim : limitOk (some l) (a.vals.length + 1) := by
            intro l' hl'
            injection hl' with hll
            omega
          rw [push_bind_eq d (some l) enc b a v w ha hw hlim] at h
          injection h with h
          exact ⟨a, w, rfl, rfl, hlim, h.symm⟩

theorem push_fragment_eq {α : Type} (d : Dialect) (lim : Option Nat)
    (enc : α → Except String α) (b frag : QueryBuilder α)
    (a fa : ArgumentBuffer α) (hb : b.arguments = some a)
    (hf : frag.arguments = some fa) (hlim : limitOk lim a.vals.length) :
    b.push_fragment d lim enc frag =
      .ok { b with
        query := b.query ++ frag.query ++ placeholderToken d a.vals.length,
        arguments := some a } := by
  cases lim with
  | none =>
    simp [QueryBuilder.push_fragment, QueryBuilder.sanity_check, hb, hf,
      addTakenArguments, ArgumentBuffer.reserve, ArgumentBuffer.formatPlaceholder,
      Bind.bind, Except.bind, Pure.pure, Except.pure, List.append_assoc]
  | some l =>
    have hl : ¬ l < a.vals.length := by
      have := hlim l rfl
      omega
    simp [QueryBuilder.push_fragment, QueryBuilder.sanity_check, hb, hf,
      addTakenArguments, ArgumentBuffer.reserve, ArgumentBuffer.formatPlaceholder, hl,
      Bind.bind, Except.bind, Pure.pure, Except.pure, List.append_assoc]

theorem push_fragment_none_err {α : Type} (d : Dialect) (lim : Option Nat)
    (enc : α → Except String α) (b frag : QueryBuilder α)
    (h : b.arguments = none) :
    b.push_fragment d lim enc frag =
      .error "QueryBuilder must be reset before reuse after build" := by
  simp [QueryBuilder.push_fragment, QueryBuilder.sanity_check, h, Bind.bind, Except.bind]

theorem push_fragment_taken_err {α : Type} (d : Dialect) (lim : Option Nat)
    (enc : α → Except String α) (b frag : QueryBuilder α) (a : ArgumentBuffer α)
    (hb : b.arguments = some a) (hf : frag.arguments = none) :
    b.push_fragment d lim enc frag = .error "BUG: Arguments taken already" := by
  simp [QueryBuilder.push_fragment, QueryBuilder.sanity_check, hb, hf,
    Bind.bind, Except.bind, Pure.pure, Except.pure]

theorem push_fragment_limit_err {α : Type} (d : Dialect)
    (enc : α → Except String α) (b frag : QueryBuilder α)
    (a fa : ArgumentBuffer α) (l : Nat) (hb : b.arguments = some a)
    (hf : frag.arguments = some fa) (hl : l < a.vals.length) :
    b.push_fragment d (some l) enc frag = .error "parameter limit exceeded" := by
  simp [QueryBuilder.push_fragment, QueryBuilder.sanity_check, hb, hf,
    addTakenArguments, ArgumentBuffer.reserve, ArgumentBuffer.formatPlaceholder, hl,
    Bind.bind, Except.bind, Pure.pure, Except.pure]

theorem push_fragment_ok_inv {α : Type} {d : Dialect} {lim : Option Nat}
    {enc : α → Except String α} {b frag b' : QueryBuilder α}
    (h : b.push_fragment d lim enc frag = .ok b') :
    ∃ a fa, b.arguments = some a ∧ frag.arguments = some fa ∧
      limitOk lim a.vals.length ∧
      b' = { b with
        query := b.query ++ frag.query ++ placeholderToken d a.vals.length,
        arguments := some a } := by
  cases hb : b.arguments with
  | none =>
    rw [push_fragment_none_err d lim enc b frag hb] at h
    exact Except.noConfusion h
  | some a =>
    cases hf : frag.arguments with
    | none =>
      rw [push_fragment_taken_err d lim enc b frag a hb hf] at h
      exact Except.noConfusion h
    | some fa =>
      cases lim with
      | none =>
        rw [push_fragment_eq d none enc b frag a fa hb hf (limitOk_none _)] at h
        injection h with h
        exact ⟨a, fa, rfl, rfl, limitOk_none _, h.symm⟩
      | some l =>
        by_cases hl : l < a.vals.length
        · rw [push_fragment_limit_err d enc b frag a fa l hb hf hl] at h
          exact Except.noConfusion h
        · have hlim : limitOk (some l) a.vals.length := by
            intro l' hl'
            injection hl' with hll
            omega
          rw [push_fragment_eq d (some l) enc b frag a fa hb hf hlim] at h
          injection h with h
          exact ⟨a, fa, rfl, rfl, hlim, h.symm⟩

theorem separated_eq {α : Type} (b : QueryBuilder α) (a : ArgumentBuffer α)
    (sep : Str) (h : b.arguments = some a) :
    b.separated sep = .ok ⟨b, sep, false⟩ := by
  simp [QueryBuilder.separated, QueryBuilder.sanity_check, h, Bind.bind, Except.bind,
    Pure.pure, Except.pure]

theorem separated_none_err {α : Type} (b : QueryBuilder α) (sep : Str)
    (h : b.arguments = none) :
    b.separated sep = .error "QueryBuilder must be reset before reuse after build" := by
  simp [QueryBuilder.separated, QueryBuilder.sanity_check, h, Bind.bind, Except.bind]

/-- States of a live `QueryBuilder` reachable through the public API from a
builder created over initial text `init` (by `new`, or `with_arguments` with
any buffer), for a fixed dialect and limit (the `DB` type parameter of the
Rust code). The terminal consuming operations (`into_sql`,
`into_sqlx_query_builder`) take the builder by value and so yield no successor
builder state; `push_fragment` likewise consumes the fragment it merges, so
the emptied fragment is not an observable builder either. `Separated` views
mutate the parent only through `push`/`push_bind`, covered by those steps. -/
inductive Reachable {α : Type} (d : Dialect) (lim : Option Nat) (init : Str) :
    QueryBuilder α → Prop where
  | base : Reachable d lim init (QueryBuilder.new init)
  | base_with_arguments (args : ArgumentBuffer α) :
      Reachable d lim init (QueryBuilder.with_arguments init args)
  | step_push (b b' : QueryBuilder α) (sql : Str) : Reachable d lim init b →
      b.push sql = .ok b' → Reachable d lim init b'
  | step_push_bind (b b' : QueryBuilder α) (enc : α → Except String α) (v : α) :
      Reachable d lim init b → b.push_bind d lim enc v = .ok b' →
      Reachable d lim init b'
  | step_push_fragment (b frag b' : QueryBuilder α) (enc : α → Except String α) :
      Reachable d lim init b → b.push_fragment d lim enc frag = .ok b' →
      Reachable d lim init b'
  | step_reset (b : QueryBuilder α) : Reachable d lim init b →
      Reachable d lim init b.reset

theorem reachable_state {α : Type} {d : Dialect} {lim : Option Nat} {init : Str}
    {b : QueryBuilder α} (h : Reachable d lim init b) :
    b.arguments.isSome ∧ b.init_len = init.length ∧
      init.length ≤ b.query.length ∧ b.query.take init.length = init := by
  induction h with
  | base =>
    simp [QueryBuilder.new, List.take_length]
  | base_with_arguments args =>
    simp [QueryBuilder.with_arguments, List.take_length]
  | step_push b b' sql hr hok ih =>
    obtain ⟨hsome, rfl⟩ := push_ok_inv hok
    obtain ⟨ih1, ih2, ih3, ih4⟩ := ih
    refine ⟨ih1, ih2, ?_, ?_⟩
    · simp
      omega
    · simpa [List.take_append_of_le_length ih3] using ih4
  | step_push_bind b b' enc v hr hok ih =>
    obtain ⟨a, w, ha, hw, hlim, rfl⟩ := push_bind_ok_inv hok
    obtain ⟨ih1, ih2, ih3, ih4⟩ := ih
    refine ⟨by simp, ih2, ?_, ?_⟩
    · simp
      omega
    · simpa [List.take_append_of_le_length ih3] using ih4
  | step_push_fragment b frag b' enc hr hok ih =>
    obtain ⟨a, fa, ha, hf, hlim, rfl⟩ := push_fragment_ok_inv hok
    obtain ⟨ih1, ih2, ih3, ih4⟩ := ih
    refine ⟨by simp, ih2, ?_, ?_⟩
    · simp
      omega
    · simp only [List.append_assoc]
      simpa [List.take_append_of_le_length ih3] using ih4
  | step_reset b hr ih =>
    obtain ⟨ih1, ih2, ih3, ih4⟩ := ih
    have hq : b.reset.query = init := by
      simp [QueryBuilder.reset, ih2, ih4]
    refine ⟨by simp [QueryBuilder.reset], by simp [QueryBuilder.reset, ih2], ?_, ?_⟩
    · rw [hq]
    · rw [hq, List.take_length]

theorem runOps_ok {α : Type} (d : Dialect) (ops : List (Op α)) :
    ∀ (b : QueryBuilder α) (vs : List α), b.arguments = some ⟨vs⟩ →
    runOps d none encodeOk b ops =
      .ok { query := b.query ++ renderOps d vs.length ops, init_len := b.init_len,
            arguments := some ⟨vs ++ bindVals ops⟩ } := by
  induction ops with
  | nil =>
    intro b vs h
    cases b with
    | mk q il ar =>
      simp only [QueryBuilder.mk.injEq] at h ⊢
      simp [runOps, renderOps, bindVals, Pure.pure, Except.pure, h]
  | cons op rest ih =>
    intro b vs h
    cases op with
    | push s =>
      rw [runOps, push_eq b ⟨vs⟩ s h]
      simp only [Bind.bind, Except.bind]
      rw [ih { b with query := b.query ++ s } vs (by simp [h])]
      simp [renderOps, bindVals, List.append_assoc]
    | push_bind v =>
      rw [runOps, push_bind_eq d none encodeOk b ⟨vs⟩ v v h rfl (limitOk_none _)]
      simp only [Bind.bind, Except.bind]
      rw [ih _ (vs ++ [v]) (by simp)]
      simp [renderOps, bindVals, List.append_assoc]

theorem count_renderOps_questionMark {α : Type} (ops : List (Op α)) :
    ∀ k, (∀ s ∈ pushedStrs ops, s.count '?' = 0) →
    (renderOps .questionMark k ops).count '?' = (bindVals ops).length := by
  induction ops with
  | nil =>
    intro k _
    simp [renderOps, bindVals]
  | cons op rest ih =>
    intro k h
    cases op with
    | push s =>
      have hs : s.count '?' = 0 := h s (by simp [pushedStrs])
      have hrest : ∀ t ∈ pushedStrs rest, t.count '?' = 0 := by
        intro t ht
        exact h t (by simp [pushedStrs, ht])
      simp [renderOps, bindVals, List.count_append, hs, ih k hrest]
    | push_bind v =>
      have hrest : ∀ t ∈ pushedStrs rest, t.count '?' = 0 := by
        intro t ht
        exact h t (by simp [pushedStrs, ht])
      simp [renderOps, bindVals, List.count_append, placeholderToken, ih (k + 1) hrest]

theorem sep_push_unseparated_ok_inv {α : Type} {s s' : Separated α} {sql : Str}
    (h : s.push_unseparated sql = .ok s') :
    s.query_builder.arguments.isSome ∧
    s' = { s with query_builder :=
      { s.query_builder with query := s.query_builder.query ++ sql } } := by
  unfold Separated.push_unseparated at h
  cases hqb : s.query_builder.push sql with
  | error e =>
    rw [hqb] at h
    simp only [Bind.bind, Except.bind] at h
    exact Except.noConfusion h
  | ok qb =>
    rw [hqb] at h
    simp only [Bind.bind, Except.bind, Pure.pure, Except.pure] at h
    obtain ⟨hsome, rfl⟩ := push_ok_inv hqb
    injection h with h
    exact ⟨hsome, h.symm⟩

theorem sep_push_bind_unseparated_ok_inv {α : Type} {d : Dialect}
    {lim : Option Nat} {enc : α → Except String α} {s s' : Separated α} {v : α}
    (h : Separated.push_bind_unseparated d lim enc s v = .ok s') :
    s'.push_separator = s.push_separator ∧ s'.separator = s.separator := by
  unfold Separated.push_bind_unseparated at h
  cases hqb : s.query_builder.push_bind d lim enc v with
  | error e =>
    rw [hqb] at h
    simp only [Bind.bind, Except.bind] at h
    exact Except.noConfusion h
  | ok qb =>
    rw [hqb] at h
    simp only [Bind.bind, Except.bind, Pure.pure, Except.pure] at h
    injection h with h
    rw [← h]
    exact ⟨rfl, rfl⟩

theorem sep_push_ok_flag {α : Type} {s s' : Separated α} {sql : Str}
    (h : s.push sql = .ok s') : s'.push_separator = true := by
  obtain ⟨qb0, sep0, flag0⟩ := s
  cases flag0 with
  | false =>
    simp only [Separated.push, Bool.false_eq_true, if_false] at h
    cases hqb : QueryBuilder.push qb0 sql with
    | error e =>
      rw [hqb] at h
      simp only [Bind.bind, Except.bind] at h
      exact Except.noConfusion h
    | ok qb =>
      rw [hqb] at h
      simp only [Bind.bind, Except.bind, Pure.pure, Except.pure] at h
      injection h with h
      rw [← h]
  | true =>
    simp only [Separated.push, if_true] at h
    cases hqb : QueryBuilder.push qb0 (sep0 ++ sql) with
    | error e =>
      rw [hqb] at h
      simp only [Bind.bind, Except.bind] at h
      exact Except.noConfusion h
    | ok qb =>
      rw [hqb] at h
      simp only [Bind.bind, Except.bind, Pure.pure, Except.pure] at h
      injection h with h
      rw [← h]

theorem sep_push_bind_ok_flag {α : Type} {d : Dialect} {lim : Option Nat}
    {enc : α → Except String α} {s s' : Separated α} {v : α}
    (h : Separated.push_bind d lim enc s v = .ok s') : s'.push_separator = true := by
  obtain ⟨qb0, sep0, flag0⟩ := s
  cases flag0 with
  | false =>
    simp only [Separated.push_bind, Bool.false_eq_true, if_false, Bind.bind,
      Except.bind, Pure.pure, Except.pure] at h
    cases hq2 : QueryBuilder.push_bind d lim enc qb0 v with
    | error e =>
      rw [hq2] at h
      exact Except.noConfusion h
    | ok qb2 =>
      rw [hq2] at h
      injection h with h
      rw [← h]
  | true =>
    simp only [Separated.push_bind, if_true, Bind.bind, Except.bind, Pure.pure,
      Except.pure] at h
    cases hq1 : QueryBuilder.push qb0 sep0 with
    | error e =>
      rw [hq1] at h
      simp only [Except.bind] at h
      exact Except.noConfusion h
    | ok qb1 =>
      rw [hq1] at h
      simp only [Except.bind] at h
      cases hq2 : QueryBuilder.push_bind d lim enc qb1 v with
      | error e =>
        rw [hq2] at h
        exact Except.noConfusion h
      | ok qb2 =>
        rw [hq2] at h
        injection h with h
        rw [← h]

/-- C1: the claim states that after `push_fragment(other)` the argument
buffer of `self` contains its pre-merge entries followed by all of `other`'s
bound values, so the post-merge count equals the pre-merge count plus
`other`'s count. The code instead loses `other`'s bound values: `take()`
empties `fragment.arguments`, and the copy loop then iterates that emptied
`Option`. Here a fragment holding one bound value is merged into an empty
builder: the post-merge count is 0 while the claim requires 0 + 1. -/
theorem push_fragment_drops_fragment_arguments :
    (do
      let frag ← (QueryBuilder.new (α := Nat) ['x']).push_bind .questionMark none
        encodeOk 7
      let b ← (QueryBuilder.new (α := Nat) []).push_fragment .questionMark none
        encodeOk frag
      pure (frag.arguments.map ArgumentBuffer.len, b.arguments.map ArgumentBuffer.len) :
      Except String (Option Nat × Option Nat)) = .ok (some 1, some 0) ∧
    (0 : Nat) ≠ 0 + 1 :=
  ⟨rfl, by decide⟩

/-- C2: the claim states that `push_fragment(other)` changes `self`'s text
exactly by appending `other`'s text once, emitting no placeholder token of
its own. The code's trailing `format_placeholder` call appends one extra
placeholder unconditionally: merging a bind-free fragment with text `x` into
a builder with text `SELECT ` yields `SELECT x?`, not `SELECT x`. -/
theorem push_fragment_appends_extra_placeholder :
    ((QueryBuilder.new (α := Nat) "SELECT ".toList).push_fragment .questionMark none
        encodeOk (QueryBuilder.new ['x'])).map QueryBuilder.sql =
      .ok "SELECT x?".toList ∧
    "SELECT x?".toList ≠ "SELECT ".toList ++ ['x'] :=
  ⟨rfl, by decide⟩

/-- C3: for every sequence of `push`/`push_bind` operations on a builder
(pushed text free of placeholder tokens): the run from `new init` yields text
`init ++ renderOps`, where `renderOps` interleaves the pushed fragments with
exactly one placeholder token per bind, the `j`-th bind of the run rendered
as the token numbered `j` — so placeholder `k` in text order corresponds to
argument `k` of the final buffer, which is exactly the list of bound values
in call order; for the `?` dialect the number of placeholder characters in
the final text equals the argument count; and a single `push_bind` appends
exactly one placeholder and exactly one buffer entry in one atomic state
update (the value is recorded in the same returned state as its
placeholder). -/
theorem push_sequences_placeholder_argument_correspondence {α : Type}
    (d : Dialect) (init : Str) (ops : List (Op α)) (b : QueryBuilder α)
    (vs : List α) (v : α) (hinit : init.count '?' = 0)
    (hops : ∀ s ∈ pushedStrs ops, s.count '?' = 0)
    (hb : b.arguments = some ⟨vs⟩) :
    (runOps d none encodeOk (QueryBuilder.new init) ops =
      .ok { query := init ++ renderOps d 0 ops, init_len := init.length,
            arguments := some ⟨bindVals ops⟩ }) ∧
    ((init ++ renderOps .questionMark 0 ops).count '?' = (bindVals ops).length) ∧
    (b.push_bind d none encodeOk v =
      .ok { b with
        query := b.query ++ placeholderToken d (vs.length + 1),
        arguments := some ⟨vs ++ [v]⟩ }) := by
  refine ⟨runOps_ok d ops (QueryBuilder.new init) [] rfl, ?_, ?_⟩
  · simp [List.count_append, hinit, count_renderOps_questionMark ops 0 hops]
  · exact push_bind_eq d none encodeOk b ⟨vs⟩ v v hb rfl (limitOk_none _)

/-- Witness for C3: a concrete run with one pushed fragment and two binds on
the `?` dialect, and a single `push_bind` on a builder holding one value. -/
theorem push_sequences_placeholder_argument_correspondence_witness :
    (runOps .questionMark none encodeOk (QueryBuilder.new "IN (".toList)
        [Op.push_bind 1, Op.push ", ".toList, Op.push_bind 2] =
      .ok ⟨"IN (?, ?".toList, 4, some ⟨[1, 2]⟩⟩) ∧
    ("IN (?, ?".toList.count '?' = 2) ∧
    (QueryBuilder.push_bind .questionMark none encodeOk
        (QueryBuilder.new (α := Nat) ['W']) 9 = .ok ⟨['W', '?'], 1, some ⟨[9]⟩⟩) :=
  push_sequences_placeholder_argument_correspondence .questionMark "IN (".toList
    [Op.push_bind 1, Op.push ", ".toList, Op.push_bind 2] (QueryBuilder.new ['W'])
    [] 9 (by decide) (by decide) rfl

/-- C4: a failing `push_bind` surfaces an explicit error — an encode failure
propagates its message, and exceeding the parameter-count limit fails in
`format_placeholder` — never a silent drop; and any successful `push_bind`
returns a state holding exactly one new placeholder and exactly one new bound
value, so no placeholder-without-value or value-without-placeholder state is
observable. -/
theorem push_bind_failure_surfaced_and_consistent {α : Type} (d : Dialect)
    (lim : Option Nat) (enc : α → Except String α) (b : QueryBuilder α)
    (a : ArgumentBuffer α) (v : α) (hb : b.arguments = some a) :
    (∀ e, enc v = .error e → b.push_bind d lim enc v = .error e) ∧
    (∀ w l, enc v = .ok w → lim = some l → l < a.vals.length + 1 →
      b.push_bind d lim enc v = .error "parameter limit exceeded") ∧
    (∀ b', b.push_bind d lim enc v = .ok b' →
      ∃ w, enc v = .ok w ∧
        b'.query = b.query ++ placeholderToken d (a.vals.length + 1) ∧
        b'.arguments = some ⟨a.vals ++ [w]⟩) := by
  refine ⟨?_, ?_, ?_⟩
  · intro e he
    exact push_bind_enc_err d lim enc b a v e hb he
  · intro w l hw hl hlt
    subst hl
    exact push_bind_limit_err d enc b a v w l hb hw hlt
  · intro b' hok
    obtain ⟨a', w, ha', hw, hlim, rfl⟩ := push_bind_ok_inv hok
    have haa : a = a' := by
      rw [hb] at ha'
      exact Option.some.inj ha'
    subst haa
    exact ⟨w, hw, rfl, rfl⟩

/-- Witness for C4: a dialect/type pairing that cannot encode, on a fresh
builder with a parameter limit. -/
theorem push_bind_failure_surfaced_and_consistent_witness :
    (∀ e, encodeFail "cannot encode" (3 : Nat) = .error e →
      QueryBuilder.push_bind .questionMark (some 5) (encodeFail "cannot encode")
        (QueryBuilder.new []) 3 = .error e) ∧
    (∀ w l, encodeFail "cannot encode" (3 : Nat) = .ok w →
      (some 5 : Option Nat) = some l →
      l < (⟨[]⟩ : ArgumentBuffer Nat).vals.length + 1 →
      QueryBuilder.push_bind .questionMark (some 5) (encodeFail "cannot encode")
        (QueryBuilder.new []) 3 = .error "parameter limit exceeded") ∧
    (∀ b', QueryBuilder.push_bind .questionMark (some 5) (encodeFail "cannot encode")
        (QueryBuilder.new []) 3 = .ok b' →
      ∃ w, encodeFail "cannot encode" (3 : Nat) = .ok w ∧
        b'.query = (QueryBuilder.new (α := Nat) []).query ++
          placeholderToken .questionMark ((⟨[]⟩ : ArgumentBuffer Nat).vals.length + 1) ∧
        b'.arguments = some ⟨(⟨[]⟩ : ArgumentBuffer Nat).vals ++ [w]⟩) :=
  push_bind_failure_surfaced_and_consistent .questionMark (some 5)
    (encodeFail "cannot encode") (QueryBuilder.new []) ⟨[]⟩ 3 rfl

/-- C5: every mutating entry point (`push`, `push_bind`, `push_fragment`,
`separated`) begins with `sanity_check` and fails fatally when the argument
buffer is absent (the Finalized state); `reset` and the read-only accessor
`sql` perform no such check and are valid in any state. -/
theorem mutating_calls_guarded_when_finalized {α : Type} (d : Dialect)
    (lim : Option Nat) (enc : α → Except String α) (b b₂ : QueryBuilder α)
    (sql sep : Str) (v : α) (frag : QueryBuilder α) (h : b.arguments = none) :
    b.push sql = .error "QueryBuilder must be reset before reuse after build" ∧
    b.push_bind d lim enc v =
      .error "QueryBuilder must be reset before reuse after build" ∧
    b.push_fragment d lim enc frag =
      .error "QueryBuilder must be reset before reuse after build" ∧
    b.separated sep = .error "QueryBuilder must be reset before reuse after build" ∧
    b₂.reset = { b₂ with query := b₂.query.take b₂.init_len, arguments := some ⟨[]⟩ } ∧
    b₂.sql = b₂.query :=
  ⟨push_none_err b sql h, push_bind_none_err d lim enc b v h,
    push_fragment_none_err d lim enc b frag h, separated_none_err b sep h, rfl, rfl⟩

/-- Witness for C5: a finalized builder (argument buffer absent) rejects all
four mutating calls, while `reset` and `sql` work on an arbitrary builder. -/
theorem mutating_calls_guarded_when_finalized_witness :
    (⟨['x'], 1, none⟩ : QueryBuilder Nat).push ['a'] =
      .error "QueryBuilder must be reset before reuse after build" ∧
    QueryBuilder.push_bind .questionMark none encodeOk
      (⟨['x'], 1, none⟩ : QueryBuilder Nat) 3 =
      .error "QueryBuilder must be reset before reuse after build" ∧
    QueryBuilder.push_fragment .questionMark none encodeOk
      (⟨['x'], 1, none⟩ : QueryBuilder Nat) (QueryBuilder.new []) =
      .error "QueryBuilder must be reset before reuse after build" ∧
    (⟨['x'], 1, none⟩ : QueryBuilder Nat).separated [','] =
      .error "QueryBuilder must be reset before reuse after build" ∧
    (⟨['y', 'z'], 1, some ⟨[3]⟩⟩ : QueryBuilder Nat).reset = ⟨['y'], 1, some ⟨[]⟩⟩ ∧
    (⟨['y', 'z'], 1, some ⟨[3]⟩⟩ : QueryBuilder Nat).sql = ['y', 'z'] :=
  mutating_calls_guarded_when_finalized .questionMark none encodeOk
    ⟨['x'], 1, none⟩ ⟨['y', 'z'], 1, some ⟨[3]⟩⟩ ['a'] [','] 3
    (QueryBuilder.new []) rfl

/-- C6: for every builder reachable from initial text `init`, `reset()`
truncates the text back to exactly `init` and installs a fresh empty argument
buffer, so a subsequent finalize yields text `init` and an empty argument
list, regardless of the prior mutation history. -/
theorem reset_then_finalize_restores_initial {α : Type} {d : Dialect}
    {lim : Option Nat} {init : Str} {b : QueryBuilder α}
    (h : Reachable d lim init b) :
    b.reset.query = init ∧ b.reset.arguments = some ⟨[]⟩ ∧
    b.reset.into_sqlx_query_builder = .ok (init, ⟨[]⟩) ∧
    b.reset.into_sql = init := by
  obtain ⟨hsome, hlen, hle, htake⟩ := reachable_state h
  have hq : b.reset.query = init := by
    simp [QueryBuilder.reset, hlen, htake]
  refine ⟨hq, rfl, ?_, hq⟩
  show Except.ok (b.reset.query, (⟨[]⟩ : ArgumentBuffer α)) = .ok (init, ⟨[]⟩)
  rw [hq]

/-- Witness for C6: a builder built from `SELECT ` by one push, then reset. -/
theorem reset_then_finalize_restores_initial_witness :
    (⟨"SELECT x".toList, 7, some ⟨[]⟩⟩ : QueryBuilder Nat).reset.query =
      "SELECT ".toList ∧
    (⟨"SELECT x".toList, 7, some ⟨[]⟩⟩ : QueryBuilder Nat).reset.arguments =
      some ⟨[]⟩ ∧
    (⟨"SELECT x".toList, 7, some ⟨[]⟩⟩ : QueryBuilder Nat).reset.into_sqlx_query_builder =
      .ok ("SELECT ".toList, ⟨[]⟩) ∧
    (⟨"SELECT x".toList, 7, some ⟨[]⟩⟩ : QueryBuilder Nat).reset.into_sql =
      "SELECT ".toList :=
  reset_then_finalize_restores_initial
    (@Reachable.step_push Nat .questionMark none "SELECT ".toList
      (QueryBuilder.new "SELECT ".toList) ⟨"SELECT x".toList, 7, some ⟨[]⟩⟩ ['x']
      Reachable.base rfl)

/-- C7: on a builder with empty initial prefix, pushing `a`, `b`, `c` through
a `Separated` view with separator `, ` yields exactly `a, b, c` — one
separator between consecutive elements, none leading or trailing. -/
theorem separated_list_no_leading_or_trailing_separator :
    (do
      let s ← (QueryBuilder.new (α := Nat) []).separated ", ".toList
      let s ← s.push ['a']
      let s ← s.push ['b']
      let s ← s.push ['c']
      pure s.query_builder.query : Except String Str) = .ok "a, b, c".toList :=
  rfl

/-- C8: on the numbered dialect, a `push_bind` performed when the argument
buffer holds `n - 1` values — i.e. the `n`-th `push_bind` starting from an
empty buffer, since each `push_bind` adds exactly one value — appends the
1-based placeholder `$n` to the text. -/
theorem push_bind_numbered_emits_nth_placeholder {α : Type} (b : QueryBuilder α)
    (vs : List α) (v : α) (n : Nat) (hb : b.arguments = some ⟨vs⟩)
    (hn : vs.length + 1 = n) :
    b.push_bind .numbered none encodeOk v =
      .ok { b with
        query := b.query ++ '$' :: Nat.toDigits 10 n,
        arguments := some ⟨vs ++ [v]⟩ } := by
  subst hn
  exact push_bind_eq .numbered none encodeOk b ⟨vs⟩ v v hb rfl (limitOk_none _)

/-- Witness for C8: from an empty-prefix builder the first `push_bind` emits
`$1` and the second emits `$2`. -/
theorem push_bind_numbered_emits_nth_placeholder_witness :
    (QueryBuilder.new (α := Nat) []).push_bind .numbered none encodeOk 10 =
      .ok ⟨"$1".toList, 0, some ⟨[10]⟩⟩ ∧
    QueryBuilder.push_bind .numbered none encodeOk
      (⟨"$1".toList, 0, some ⟨[10]⟩⟩ : QueryBuilder Nat) 20 =
      .ok ⟨"$1$2".toList, 0, some ⟨[10, 20]⟩⟩ :=
  ⟨push_bind_numbered_emits_nth_placeholder (QueryBuilder.new []) [] 10 1 rfl rfl,
    push_bind_numbered_emits_nth_placeholder ⟨"$1".toList, 0, some ⟨[10]⟩⟩ [10] 20 2
      rfl rfl⟩

/-- C9: every builder state reachable through the public API has its argument
buffer present, so `sanity_check` succeeds on it — the assertion and the
`Arguments taken already` branches are unreachable, because the terminal
operations consume the builder by value and `push_fragment` empties only the
fragment it consumes. -/
theorem reachable_builder_arguments_present {α : Type} {d : Dialect}
    {lim : Option Nat} {init : Str} {b : QueryBuilder α}
    (h : Reachable d lim init b) :
    b.arguments.isSome = true ∧ b.sanity_check = .ok () := by
  have hsome := (reachable_state h).1
  exact ⟨hsome, sanity_check_ok b hsome⟩

/-- Witness for C9: the builder reached by one `push_bind` from `new`. -/
theorem reachable_builder_arguments_present_witness :
    (⟨"$1".toList, 0, some ⟨[5]⟩⟩ : QueryBuilder Nat).arguments.isSome = true ∧
    (⟨"$1".toList, 0, some ⟨[5]⟩⟩ : QueryBuilder Nat).sanity_check = .ok () :=
  reachable_builder_arguments_present
    (@Reachable.step_push_bind Nat .numbered none []
      (QueryBuilder.new []) ⟨"$1".toList, 0, some ⟨[5]⟩⟩ encodeOk 5
      Reachable.base rfl)

/-- C10: `push_unseparated` and `push_bind_unseparated` leave the view's
`push_separator` flag unchanged, `push` and `push_bind` always leave it set;
and after an unseparated call on a fresh view (flag still false) the next
`push` emits no separator, appending its fragment alone. -/
theorem unseparated_ops_preserve_separator_flag {α : Type} (d : Dialect)
    (lim : Option Nat) (enc : α → Except String α) (s s₁ s₂ s₃ s₄ : Separated α)
    (sql sql₂ : Str) (v w : α)
    (h₁ : s.push_unseparated sql = .ok s₁)
    (h₂ : Separated.push_bind_unseparated d lim enc s v = .ok s₂)
    (h₃ : s.push sql = .ok s₃)
    (h₄ : Separated.push_bind d lim enc s w = .ok s₄) :
    s₁.push_separator = s.push_separator ∧
    s₂.push_separator = s.push_separator ∧
    s₃.push_separator = true ∧
    s₄.push_separator = true ∧
    (s.push_separator = false →
      s₁.push sql₂ = .ok {
        query_builder :=
          { s₁.query_builder with query := s₁.query_builder.query ++ sql₂ },
        separator := s₁.separator,
        push_separator := true }) := by
  obtain ⟨hsome, rfl⟩ := sep_push_unseparated_ok_inv h₁
  refine ⟨rfl, (sep_push_bind_unseparated_ok_inv h₂).1, sep_push_ok_flag h₃,
    sep_push_bind_ok_flag h₄, ?_⟩
  intro hfalse
  obtain ⟨a, ha⟩ := Option.isSome_iff_exists.mp hsome
  unfold Separated.push
  rw [hfalse]
  simp only [Bool.false_eq_true, if_false]
  rw [push_eq ⟨s.query_builder.query ++ sql, s.query_builder.init_len,
    s.query_builder.arguments⟩ a sql₂ ha]
  simp only [Bind.bind, Except.bind, Pure.pure, Except.pure]

/-- Witness for C10: a fresh view over an empty builder; the unseparated
calls leave the flag clear and a following `push` adds no separator. -/
theorem unseparated_ops_preserve_separator_flag_witness :
    (⟨⟨['u'], 0, some ⟨[]⟩⟩, [','], false⟩ : Separated Nat).push_separator = false ∧
    (⟨⟨['?'], 0, some ⟨[9]⟩⟩, [','], false⟩ : Separated Nat).push_separator = false ∧
    (⟨⟨['u'], 0, some ⟨[]⟩⟩, [','], true⟩ : Separated Nat).push_separator = true ∧
    (⟨⟨['?'], 0, some ⟨[7]⟩⟩, [','], true⟩ : Separated Nat).push_separator = true ∧
    ((false : Bool) = false →
      Separated.push (⟨⟨['u'], 0, some ⟨[]⟩⟩, [','], false⟩ : Separated Nat) ['b'] =
        .ok ⟨⟨['u', 'b'], 0, some ⟨[]⟩⟩, [','], true⟩) :=
  unseparated_ops_preserve_separator_flag .questionMark none encodeOk
    ⟨QueryBuilder.new [], [','], false⟩ ⟨⟨['u'], 0, some ⟨[]⟩⟩, [','], false⟩
    ⟨⟨['?'], 0, some ⟨[9]⟩⟩, [','], false⟩ ⟨⟨['u'], 0, some ⟨[]⟩⟩, [','], true⟩
    ⟨⟨['?'], 0, some ⟨[7]⟩⟩, [','], true⟩ ['u'] ['b'] 9 7 rfl rfl rfl rfl

end SqlxFragment
